import Mathlib

/-!
Shallow embedding of `src/app.py` ("Sales Prep Analyst", a Streamlit app).

External effects are modelled as explicit environments:
* `SearchEnv`  — the DuckDuckGo search client (`DDGS.text`) plus Python's
  `str` on a result list; a `none` outcome models a raised exception.
* `GeminiEnv`  — `genai.configure` (can raise) and the combined
  `GenerativeModel(m).generate_content(prompt).text` call per model id
  (`none` models a raised exception).
* `loads : String → Option Json` — `json.loads`; `none` models a raised
  `JSONDecodeError`.

Python strings are Lean `String`/`List Char`; Python truthiness is made
explicit (`pyTruthy`, emptiness tests). Streamlit session state is the
record `SessState`; button handlers are state transformers that also
return the list of `st.error` messages they emit and logs of the outbound
calls they make.
-/

/-- JSON values, the codomain of the modelled `json.loads`.
Numbers are modelled as integers; the claims only depend on truthiness
and on container values. -/
inductive Json where
  | null : Json
  | bool (b : Bool) : Json
  | num (n : Int) : Json
  | str (s : String) : Json
  | arr (xs : List Json) : Json
  | obj (kvs : List (String × Json)) : Json

/-- Python truthiness of a JSON value (`if data:`). -/
def pyTruthy : Json → Bool
  | .null => false
  | .bool b => b
  | .num n => n != 0
  | .str s => !s.isEmpty
  | .arr xs => !xs.isEmpty
  | .obj kvs => !kvs.isEmpty

/-- The ASCII whitespace characters stripped by Python's `str.strip()`. -/
def isPyWs (c : Char) : Bool :=
  c = ' ' || c = '\t' || c = '\n' || c = '\r' || c = '\x0b' || c = '\x0c'

/-- Python `str.strip()` on a character list. -/
def pyStrip (cs : List Char) : List Char :=
  ((cs.dropWhile isPyWs).reverse.dropWhile isPyWs).reverse

/-- Worker for `stripFences`, structurally recursive on a fuel argument
so that it computes by kernel reduction; every step consumes at least
one character, so fuel `cs.length` never runs out. -/
def stripFencesGo : Nat → List Char → List Char
  | 0, _ => []
  | _, [] => []
  | fuel + 1, c :: rest =>
    if ("```json".toList).isPrefixOf (c :: rest) then stripFencesGo fuel (rest.drop 6)
    else if ("```".toList).isPrefixOf (c :: rest) then stripFencesGo fuel (rest.drop 2)
    else c :: stripFencesGo fuel rest

/-- Model of `re.sub(r"```json|```", "", text)`: scan left to right, deleting
`` ```json `` (preferred by the alternation) or `` ``` `` at each
position. -/
def stripFences (cs : List Char) : List Char :=
  stripFencesGo cs.length cs

/-- The longest prefix of `cs` that ends with `']'` (i.e. everything up to
and including the last `']'`), or `none` when `cs` has no `']'`.  This is
what the greedy `.*\]` consumes after the initial `\[`. -/
def lastCloseSplit (cs : List Char) : Option (List Char) :=
  match cs with
  | [] => none
  | c :: rest =>
    match lastCloseSplit rest with
    | some p => some (c :: p)
    | none => if c = ']' then some [c] else none

/-- Model of `re.search(r'\[.*\]', text, re.DOTALL)`: leftmost match start, greedy
`.*`.  Returns the matched substring (`match.group(0)`). -/
def bracketSearch (cs : List Char) : Option (List Char) :=
  match cs with
  | [] => none
  | c :: rest =>
    if c = '[' then
      match lastCloseSplit rest with
      | some p => some (c :: p)
      | none => bracketSearch rest
    else bracketSearch rest

/-- Function `extract_json` (src/app.py lines 49-58), parameterised over
`json.loads`.  The `try/except` around the body is reflected in the
`Option` codomain of `loads`; the string operations themselves cannot
raise. -/
def extract_json (loads : String → Option Json) (text : String) : Option Json :=
  let t := pyStrip (stripFences text.toList)
  match bracketSearch t with
  | some m => loads (String.mk m)
  | none => loads (String.mk t)

/-- Whether the stripped text contains a `'['` followed strictly later by
a `']'` — exactly the condition under which `re.search(r'\[.*\]')`
succeeds. -/
def hasBracketPair (cs : List Char) : Bool :=
  match cs.dropWhile (· != '[') with
  | [] => false
  | _ :: rest => rest.contains ']'

-- ### Lemmas about the bracket search

theorem lastCloseSplit_eq_none_iff {cs : List Char} :
    lastCloseSplit cs = none ↔ ']' ∉ cs := by
  induction cs with
  | nil => simp [lastCloseSplit]
  | cons c rest ih =>
    simp only [lastCloseSplit, List.mem_cons, not_or]
    cases hr : lastCloseSplit rest with
    | some p => simp [hr.symm ▸ ih.symm, hr]
    | none =>
      rw [hr] at ih
      by_cases hc : c = ']'
      · simp [hc]
      · simp [hc, Ne.symm hc, ih.mp rfl]

theorem lastCloseSplit_eq_some {cs p : List Char}
    (h : lastCloseSplit cs = some p) :
    ∃ q post, cs = q ++ [']'] ++ post ∧ p = q ++ [']'] ∧ ']' ∉ post := by
  induction cs generalizing p with
  | nil => simp [lastCloseSplit] at h
  | cons c rest ih =>
    simp only [lastCloseSplit] at h
    cases hr : lastCloseSplit rest with
    | some p' =>
      rw [hr] at h
      obtain ⟨q, post, hcs, hp, hpost⟩ := ih hr
      refine ⟨c :: q, post, ?_, ?_, hpost⟩
      · simp [hcs]
      · simp_all
    | none =>
      rw [hr] at h
      by_cases hc : c = ']'
      · subst hc
        have hp : p = [']'] := by simpa using h.symm
        exact ⟨[], rest, by simp, by simp [hp], lastCloseSplit_eq_none_iff.mp hr⟩
      · simp [hc] at h

theorem bracketSearch_eq_none {cs : List Char} (h : ']' ∉ cs) :
    bracketSearch cs = none := by
  induction cs with
  | nil => rfl
  | cons c rest ih =>
    simp only [List.mem_cons, not_or] at h
    by_cases hc : c = '['
    · simp [bracketSearch, hc, lastCloseSplit_eq_none_iff.mpr h.2, ih h.2]
    · simp [bracketSearch, hc, ih h.2]

/-- Characterisation of `re.search(r'\[.*\]')`: when the text has a `'['`
followed later by a `']'` the match is the segment from the first `'['`
to the last `']'` (the part before has no `'['`, the part after has no
`']'`); otherwise the search fails. -/
theorem bracketSearch_spec (cs : List Char) :
    (hasBracketPair cs = true →
      ∃ pre mid post, cs = pre ++ mid ++ post ∧
        pre.all (· != '[') = true ∧ mid.head? = some '[' ∧
        mid.getLast? = some ']' ∧ post.all (· != ']') = true ∧
        bracketSearch cs = some mid) ∧
    (hasBracketPair cs = false → bracketSearch cs = none) := by
  induction cs with
  | nil => exact ⟨by simp [hasBracketPair], fun _ => rfl⟩
  | cons c rest ih =>
    by_cases hc : c = '['
    · subst hc
      have hdw : ('[' :: rest).dropWhile (· != '[') = '[' :: rest := by
        simp [List.dropWhile]
      constructor
      · intro h
        have hmem : ']' ∈ rest := by
          simp only [hasBracketPair, hdw] at h
          simpa using h
        cases hl : lastCloseSplit rest with
        | none => exact absurd (lastCloseSplit_eq_none_iff.mp hl) (by simp [hmem])
        | some p =>
          obtain ⟨q, post, hrest, hp, hpost⟩ := lastCloseSplit_eq_some hl
          refine ⟨[], '[' :: (q ++ [']']), post, ?_, ?_, ?_, ?_, ?_, ?_⟩
          · simp [hrest]
          · simp
          · simp
          · rw [show '[' :: (q ++ [']']) = ('[' :: q) ++ [']'] by simp,
              List.getLast?_concat]
          · simp only [List.all_eq_true, bne_iff_ne, ne_eq]
            intro x hx h
            exact hpost (h ▸ hx)
          · simp [bracketSearch, hl, hp]
      · intro h
        have hnmem : ']' ∉ rest := by
          simp only [hasBracketPair, hdw] at h
          simpa using h
        simp [bracketSearch, lastCloseSplit_eq_none_iff.mpr hnmem,
          bracketSearch_eq_none hnmem]
    · have hne : (c != '[') = true := by simp [hc]
      have hdw : (c :: rest).dropWhile (· != '[') = rest.dropWhile (· != '[') := by
        simp [List.dropWhile, hne]
      have hbp : hasBracketPair (c :: rest) = hasBracketPair rest := by
        simp [hasBracketPair, hdw]
      have hbs : bracketSearch (c :: rest) = bracketSearch rest := by
        simp [bracketSearch, hc]
      constructor
      · intro h
        obtain ⟨pre, mid, post, hcs, hpre, hhead, hlast, hpost, hfind⟩ :=
          ih.1 (hbp ▸ h)
        exact ⟨c :: pre, mid, post, by simp [hcs], by simp [hpre, hc],
          hhead, hlast, hpost, hbs ▸ hfind⟩
      · intro h
        exact hbs ▸ ih.2 (hbp ▸ h)

-- ## The search side: `robust_search` (src/app.py lines 60-77)

/-- The environment a search interaction runs in: `text q n` models
`[r for r in ddgs.text(q, max_results=n)]` (`none` = the call raised),
and `strOf` models Python's `str()` on a result list. -/
structure SearchEnv where
  text : String → Nat → Option (List String)
  strOf : List String → String

/-- Model of `query.split(" ")[0] + " company overview"`: Python's `split(" ")`
splits on single spaces only, so element 0 is the(possibly empty) prefix
of the query before its first space character. -/
def fallback_query (query : String) : String :=
  String.mk (query.toList.takeWhile (· != ' ')) ++ " company overview"

/-- The first whitespace-separated token of a string (Python
`str.split()[0]`), as the claim about `robust_search`'s fallback query
words it.  Written from the claim for comparison with `fallback_query`,
which is written from the code. -/
def specFirstWhitespaceToken (q : String) : String :=
  String.mk ((q.toList.dropWhile isPyWs).takeWhile (fun c => !isPyWs c))

/-- What one `robust_search` call returns and does: its Python return
value, the `(query, max_results)` pairs passed to `ddgs.text` in order,
and the number of `time.sleep(1)` calls made. -/
structure RSOut where
  results : List String
  queries : List (String × Nat)
  sleeps : Nat

/-- Function `robust_search` (src/app.py lines 60-77).  Attempt 1 issues the query
itself; on an exception or an empty result list it sleeps 1 second and
issues the fallback query; any exception yields `[]`.  (The `max_retries`
parameter of the Python function is unused.) -/
def robust_search (env : SearchEnv) (query : String) : RSOut :=
  let fq := fallback_query query
  let attempt2 : RSOut :=
    match env.text fq 8 with
    | some rs =>
      if rs.isEmpty then ⟨[], [(query, 8), (fq, 8)], 1⟩
      else ⟨rs, [(query, 8), (fq, 8)], 1⟩
    | none => ⟨[], [(query, 8), (fq, 8)], 1⟩
  match env.text query 8 with
  | some rs => if rs.isEmpty then attempt2 else ⟨rs, [(query, 8)], 0⟩
  | none => attempt2

/-- Python truthiness of one search attempt: it neither raised nor
returned an empty list. -/
def optTruthy (o : Option (List String)) : Bool :=
  match o with
  | some rs => !rs.isEmpty
  | none => false

-- ## The generation side: `run_gemini` (src/app.py lines 35-47)

/-- The environment a generation call runs in: `configureOk` models
whether `genai.configure` raises, and `generate m p` models
`genai.GenerativeModel(m).generate_content(p).text` (`none` = the
attempt raised somewhere in the `try`). -/
structure GeminiEnv where
  configureOk : Bool
  generate : String → String → Option String

/-- What one `run_gemini` call returns and does: its Python return value,
whether `genai.configure` was called, and the model ids attempted in
order. -/
structure GemOut where
  response : Option String
  configured : Bool
  attempted : List String

/-- The hard-coded model fallback list (src/app.py line 39). -/
def gemini_models : List String :=
  ["models/gemini-1.5-pro", "models/gemini-1.5-pro-latest", "models/gemini-1.5-flash"]

/-- The `for m in models` loop of `run_gemini`: return the first
successful generation, recording every model id attempted. -/
def try_models (env : GeminiEnv) (prompt : String) :
    List String → Option String × List String
  | [] => (none, [])
  | m :: ms =>
    match env.generate m prompt with
    | some t => (some t, [m])
    | none =>
      let r := try_models env prompt ms
      (r.1, m :: r.2)

/-- Function `run_gemini` (src/app.py lines 35-47): a falsy (empty) API key
returns `None` at once; otherwise `genai.configure` runs (a raise there
is caught by the outer `except`, shows an error and returns `None`), and
then each model in `gemini_models` is tried until one call does not
raise; if all raise, `None`. -/
def run_gemini (env : GeminiEnv) (apiKey prompt : String) : GemOut :=
  if apiKey.isEmpty then ⟨none, false, []⟩
  else if !env.configureOk then ⟨none, true, []⟩
  else
    let r := try_models env prompt gemini_models
    ⟨r.1, true, r.2⟩

-- ## Substring containment (Python's `"All" in real_unit`)

/-- Python's substring operator `needle in hay`, as a left-to-right scan. -/
def containsSeg (needle : List Char) : List Char → Bool
  | [] => needle.isEmpty
  | c :: rest => needle.isPrefixOf (c :: rest) || containsSeg needle rest

theorem isPrefixOf_iff_append {l t : List Char} :
    l.isPrefixOf t = true ↔ ∃ u, t = l ++ u := by
  induction l generalizing t with
  | nil => simp [List.isPrefixOf]
  | cons a as ih =>
    cases t with
    | nil => simp [List.isPrefixOf]
    | cons b bs =>
      simp only [List.isPrefixOf, Bool.and_eq_true, beq_iff_eq, ih,
        List.cons_append, List.cons.injEq]
      constructor
      · rintro ⟨rfl, u, rfl⟩
        exact ⟨u, rfl, rfl⟩
      · rintro ⟨u, rfl, rfl⟩
        exact ⟨rfl, u, rfl⟩

theorem containsSeg_iff {needle hay : List Char} :
    containsSeg needle hay = true ↔ ∃ pre post, hay = pre ++ needle ++ post := by
  induction hay with
  | nil =>
    simp only [containsSeg, List.isEmpty_iff]
    constructor
    · rintro rfl
      exact ⟨[], [], rfl⟩
    · rintro ⟨pre, post, h⟩
      rcases List.append_eq_nil.mp (List.append_eq_nil.mp h.symm).1 with ⟨-, h2⟩
      exact h2
  | cons c rest ih =>
    simp only [containsSeg, Bool.or_eq_true, isPrefixOf_iff_append, ih]
    constructor
    · rintro (⟨u, hu⟩ | ⟨pre, post, hp⟩)
      · exact ⟨[], u, by simp [hu]⟩
      · exact ⟨c :: pre, post, by simp [hp]⟩
    · rintro ⟨pre, post, hp⟩
      cases pre with
      | nil => exact Or.inl ⟨post, by simpa using hp⟩
      | cons p ps =>
        simp only [List.cons_append, List.cons.injEq] at hp
        exact Or.inr ⟨ps, post, hp.2⟩

-- ## The deep-dive step (src/app.py lines 172-255)

/-- The dragnet query list (src/app.py lines 179-193): 5 broad queries
when the selected unit contains `"All"` or manual-entry mode is active,
otherwise 4 unit-specific queries. -/
def deep_dive_queries (real_company real_unit competitors : String)
    (manual_entry : Bool) : List String :=
  if containsSeg "All".toList real_unit.toList || manual_entry then
    [ real_company ++ " investor presentation 2024 2025 strategic priorities",
      real_company ++ " annual report 2024 revenue growth outlook",
      real_company ++ " leadership team CEO management changes 2024 2025",
      real_company ++ " restructuring layoffs new facility investment 2025",
      real_company ++ " major customers partnerships case studies" ]
  else
    [ real_company ++ " " ++ real_unit ++ " revenue growth market share 2024",
      real_company ++ " " ++ real_unit ++ " strategic initiatives new products 2025",
      real_company ++ " " ++ real_unit ++ " competitors comparison " ++ competitors,
      real_company ++ " " ++ real_unit ++ " leadership management team" ]

/-- The search-dump accumulation loop (src/app.py lines 176, 195-198):
one segment per query whose `robust_search` returned a non-empty list. -/
def search_dump (env : SearchEnv) (queries : List String) : String :=
  queries.foldl
    (fun acc q =>
      let res := (robust_search env q).results
      if res.isEmpty then acc
      else acc ++ ("\nQuery: " ++ q ++ "\nData: " ++ env.strOf res ++ "\n"))
    ""

/-- The segment a single query contributes to the search dump, or `none`
when its search came back empty. -/
def dump_segment (env : SearchEnv) (q : String) : Option String :=
  let res := (robust_search env q).results
  if res.isEmpty then none
  else some ("\nQuery: " ++ q ++ "\nData: " ++ env.strOf res ++ "\n")

/-- What the deep-dive step renders after the generation call
(src/app.py lines 246-255). -/
inductive RenderOut where
  | reportView (heading markdown sourceData : String) : RenderOut
  | errorMsg (msg : String) : RenderOut

/-- The rendering tail of the deep-dive handler (src/app.py lines
246-255): a truthy (non-`None`, non-empty) report is rendered as
markdown with the source-data expander; otherwise
`st.error("AI generation failed.")`. -/
def deep_dive_render (real_company dump : String) (report : Option String) : RenderOut :=
  match report with
  | some r =>
    if r.isEmpty then .errorMsg "AI generation failed."
    else
      .reportView ("### 📊 Analyst Briefing: " ++ real_company) r
        (if dump.isEmpty then "Relied on Internal Knowledge." else dump)
  | none => .errorMsg "AI generation failed."

-- ## Session state and the step-1 handlers (src/app.py lines 12-17, 28-32, 94-136)

/-- The Streamlit session state the app uses. -/
structure SessState where
  step : Nat
  entity_options : Json
  manual_entry : Bool

/-- Initial session state (src/app.py lines 12-17). -/
def init_state : SessState := ⟨1, .arr [], false⟩

/-- The sidebar `Start New Search` button (src/app.py lines 28-32). -/
def start_new_search (_ : SessState) : SessState := ⟨1, .arr [], false⟩

/-- The `Skip & Enter Manually` button (src/app.py lines 94-98). -/
def skip_manual (company_input : String) (s : SessState) : SessState :=
  { s with
    manual_entry := true,
    entity_options := .arr [.obj
      [("name", .str (if company_input.isEmpty then "Target Company" else company_input)),
       ("description", .str "Manual Entry"),
       ("units", .arr [.str "General / All Units"])]],
    step := 2 }

/-- The step-1 AI-parsing prompt (src/app.py lines 118-126), with the
company input and the stringified search results formatted in. -/
def prompt_template (company_input search_text : String) : String :=
  "\n            Task: Extract corporate entities for '" ++ company_input ++
  "' from: " ++ search_text ++
  "\n            \n            SCENARIO A (Ambiguous): If multiple distinct companies exist (e.g. Merck US vs Merck DE), list both.\n            SCENARIO B (Unique): If only one company is found (e.g. Solvias), list just that one.\n            \n            Output JSON ONLY:\n            [ \x7b \"name\": \"Legal Name\", \"description\": \"HQ/Type\", \"units\": [\"Unit 1\", \"Unit 2\"] \x7d ]\n            "

/-- What one `Find Account` press returns and does: the resulting session
state, the `st.error` messages shown, the queries passed to
`robust_search`, and the number of `run_gemini` calls. -/
structure FAOut where
  state : SessState
  errors : List String
  searchQueries : List String
  geminiCalls : Nat

/-- The `Find Account` handler (src/app.py lines 100-136). -/
def find_account (senv : SearchEnv) (genv : GeminiEnv) (loads : String → Option Json)
    (api_key company_input : String) (s : SessState) : FAOut :=
  if api_key.isEmpty then ⟨s, ["❌ Need API Key"], [], 0⟩
  else
    let q := company_input ++ " corporate structure business units investor relations"
    let results := (robust_search senv q).results
    let search_text := senv.strOf results
    if results.isEmpty then
      ⟨s, ["Search found 0 results for '" ++ company_input ++ "'. Try the 'Skip' button."],
        [q], 0⟩
    else
      let response := (run_gemini genv api_key (prompt_template company_input search_text)).response
      let data : Option Json :=
        match response with
        | some r => if r.isEmpty then none else extract_json loads r
        | none => none
      match data with
      | some d =>
        if pyTruthy d then ⟨{ s with entity_options := d, step := 2 }, [], [q], 1⟩
        else ⟨s, ["AI couldn't parse the data. Use 'Skip & Enter Manually'."], [q], 1⟩
      | none => ⟨s, ["AI couldn't parse the data. Use 'Skip & Enter Manually'."], [q], 1⟩

-- ## The page-level event model (what can change session state)

/-- The user interactions that reach a state-writing handler.  The step-1
buttons only exist when the step-1 page rendered (`step == 1`); the
sidebar button always exists; the deep-dive button writes no session
state. -/
inductive Event where
  | startNewSearch : Event
  | skipManual (company_input : String) : Event
  | findAccount (senv : SearchEnv) (genv : GeminiEnv) (loads : String → Option Json)
      (api_key company_input : String) : Event
  | runDeepDive : Event

/-- One re-render cycle: dispatch an event against the current session
state. -/
def app_step (e : Event) (s : SessState) : SessState :=
  match e with
  | .startNewSearch => start_new_search s
  | .skipManual input => if s.step = 1 then skip_manual input s else s
  | .findAccount senv genv loads k input =>
      if s.step = 1 then (find_account senv genv loads k input s).state else s
  | .runDeepDive => s

/-- The session state after a sequence of interactions, from the initial
state. -/
def run_app (es : List Event) : SessState :=
  es.foldl (fun s e => app_step e s) init_state

-- ## Helper lemmas

theorem isEmpty_false_of_ne {s : String} (h : ¬ s = "") : s.isEmpty = false := by
  cases he : s.isEmpty
  · rfl
  · exact absurd ((String.isEmpty_iff s).mp he) h

theorem try_models_fst (env : GeminiEnv) (prompt : String) (ms : List String) :
    (try_models env prompt ms).1 =
      (ms.filterMap (fun m => env.generate m prompt)).head? := by
  induction ms with
  | nil => rfl
  | cons m ms ih =>
    simp only [try_models, List.filterMap_cons]
    cases h : env.generate m prompt with
    | some t => simp [h]
    | none => simpa [h] using ih

theorem foldl_append_hoist (l : List String) (a : String) :
    l.foldl (fun r s => r ++ s) a = a ++ l.foldl (fun r s => r ++ s) "" := by
  induction l generalizing a with
  | nil => simp [List.foldl, String.append_empty]
  | cons s l ih =>
    simp only [List.foldl]
    rw [ih (a ++ s), ih ("" ++ s), String.empty_append, String.append_assoc]

theorem join_cons (s : String) (l : List String) :
    String.join (s :: l) = s ++ String.join l := by
  simp only [String.join, List.foldl]
  rw [foldl_append_hoist l ("" ++ s), String.empty_append]

theorem search_dump_go (env : SearchEnv) (qs : List String) (acc : String) :
    qs.foldl
      (fun acc q =>
        if (robust_search env q).results.isEmpty then acc
        else acc ++ ("\nQuery: " ++ q ++ "\nData: " ++
          env.strOf (robust_search env q).results ++ "\n"))
      acc
    = acc ++ String.join (qs.filterMap (dump_segment env)) := by
  induction qs generalizing acc with
  | nil => simp [String.append_empty, String.join]
  | cons q qs ih =>
    by_cases he : (robust_search env q).results.isEmpty = true
    · have hseg : dump_segment env q = none := by simp [dump_segment, he]
      rw [List.foldl_cons, if_pos he, List.filterMap_cons_none hseg, ih]
    · have hseg : dump_segment env q =
          some ("\nQuery: " ++ q ++ "\nData: " ++
            env.strOf (robust_search env q).results ++ "\n") := by
        simp [dump_segment, he]
      rw [List.foldl_cons, if_neg he, List.filterMap_cons_some hseg, ih,
        join_cons, String.append_assoc]

-- ## Claim theorems

/-- Claim C8: `extract_json` is total — a Lean function into `Option Json`,
so for every input string it returns a parsed value or `none` and cannot
raise.  After stripping the markdown fences and surrounding whitespace:
when the text contains a `'['` followed later by a `']'`, what is parsed
is exactly the segment from the first `'['` (nothing before it is a
`'['`) to the last `']'` (nothing after it is a `']'`); otherwise the
whole stripped text is parsed.  `none` on parse failure is the `none` of
`loads`. -/
theorem extract_json_total_spec (loads : String → Option Json) (text : String) :
    (hasBracketPair (pyStrip (stripFences text.toList)) = true →
      ∃ pre mid post,
        pyStrip (stripFences text.toList) = pre ++ mid ++ post ∧
        pre.all (· != '[') = true ∧ mid.head? = some '[' ∧
        mid.getLast? = some ']' ∧ post.all (· != ']') = true ∧
        extract_json loads text = loads (String.mk mid)) ∧
    (hasBracketPair (pyStrip (stripFences text.toList)) = false →
      extract_json loads text = loads (String.mk (pyStrip (stripFences text.toList)))) := by
  constructor
  · intro h
    obtain ⟨pre, mid, post, hdecomp, hpre, hhead, hlast, hpost, hfind⟩ :=
      (bracketSearch_spec _).1 h
    refine ⟨pre, mid, post, hdecomp, hpre, hhead, hlast, hpost, ?_⟩
    show (match bracketSearch (pyStrip (stripFences text.toList)) with
          | some m => loads (String.mk m)
          | none => loads (String.mk (pyStrip (stripFences text.toList))))
        = loads (String.mk mid)
    rw [hfind]
  · intro h
    show (match bracketSearch (pyStrip (stripFences text.toList)) with
          | some m => loads (String.mk m)
          | none => loads (String.mk (pyStrip (stripFences text.toList))))
        = loads (String.mk (pyStrip (stripFences text.toList)))
    rw [(bracketSearch_spec _).2 h]

/-- A concrete `json.loads` stand-in used by witnesses. -/
def loadsStr : String → Option Json := fun s => some (.str s)

/-- Witness for C8 at the fenced input `"```json [1, 2] ```"`. -/
theorem extract_json_total_spec_witness :
    hasBracketPair (pyStrip (stripFences ("```json [1, 2] ```".toList))) = true ∧
    (∃ pre mid post,
      pyStrip (stripFences ("```json [1, 2] ```".toList)) = pre ++ mid ++ post ∧
      pre.all (· != '[') = true ∧ mid.head? = some '[' ∧
      mid.getLast? = some ']' ∧ post.all (· != ']') = true ∧
      extract_json loadsStr "```json [1, 2] ```" = loadsStr (String.mk mid)) :=
  ⟨by decide, (extract_json_total_spec loadsStr "```json [1, 2] ```").1 (by decide)⟩

/-- Claim C1: with a non-empty API key (and `genai.configure` not raising),
`run_gemini` tries the hard-coded model list in order and returns the
response text of the first model whose call does not throw —
`List.head?` of the successful results in list order — and `none`
(Python `None`) when every model throws. -/
theorem run_gemini_fallback (env : GeminiEnv) (api_key prompt : String)
    (hk : ¬ api_key = "") (hcfg : env.configureOk = true) :
    (run_gemini env api_key prompt).response =
      (gemini_models.filterMap (fun m => env.generate m prompt)).head? := by
  simp [run_gemini, isEmpty_false_of_ne hk, hcfg, try_models_fst]

/-- A concrete generation environment where only the second model in the
fallback list answers. -/
def genvSecond : GeminiEnv :=
  ⟨true, fun m _ => if m = "models/gemini-1.5-pro-latest" then some "ok" else none⟩

/-- Witness for C1: the second model is the first that does not throw,
and its text is returned. -/
theorem run_gemini_fallback_witness :
    ¬ ("sk-key" : String) = "" ∧ genvSecond.configureOk = true ∧
    (run_gemini genvSecond "sk-key" "p").response =
      (gemini_models.filterMap (fun m => genvSecond.generate m "p")).head? :=
  ⟨by decide, rfl, run_gemini_fallback genvSecond "sk-key" "p" (by decide) rfl⟩

/-- Claim C9: with an empty (falsy) API key, `run_gemini` returns `None`
immediately: `genai.configure` is not called and no model is
attempted. -/
theorem run_gemini_no_key (env : GeminiEnv) (prompt : String) :
    run_gemini env "" prompt = ⟨none, false, []⟩ := rfl

/-- Claim C2, as amended: `robust_search` issues the query itself with
`max_results=8`; if that attempt throws or yields no results it sleeps
1 second and issues exactly one fallback query — the part of the query
before its first space character (`query.split(" ")[0]`) followed by
`" company overview"` — and returns the first non-empty result list, or
`[]` when both attempts fail or are empty (it is a total function, so it
never raises). -/
theorem robust_search_retry_spec (env : SearchEnv) (query : String) :
    (robust_search env query).results =
      ((([env.text query 8, env.text (fallback_query query) 8].filterMap id).filter
        (fun rs => !rs.isEmpty)).headD []) ∧
    (robust_search env query).queries =
      (if optTruthy (env.text query 8) then [(query, 8)]
       else [(query, 8), (fallback_query query, 8)]) ∧
    (robust_search env query).sleeps =
      (if optTruthy (env.text query 8) then 0 else 1) := by
  cases h1 : env.text query 8 with
  | some rs =>
    cases he : rs.isEmpty with
    | true =>
      cases h2 : env.text (fallback_query query) 8 with
      | some rs2 =>
        cases he2 : rs2.isEmpty with
        | true => simp_all [robust_search, optTruthy, List.isEmpty_iff]
        | false => simp_all [robust_search, optTruthy]
      | none => simp_all [robust_search, optTruthy, List.isEmpty_iff]
    | false => simp_all [robust_search, optTruthy]
  | none =>
    cases h2 : env.text (fallback_query query) 8 with
    | some rs2 =>
      cases he2 : rs2.isEmpty with
      | true => simp_all [robust_search, optTruthy, List.isEmpty_iff]
      | false => simp_all [robust_search, optTruthy]
    | none => simp_all [robust_search, optTruthy]

/-- A search environment in which every call succeeds with zero
results. -/
def senvEmptyAll : SearchEnv := ⟨fun _ _ => some [], fun _ => "[]"⟩

/-- Claim C2, counterexample: the fallback query is built from
`query.split(" ")[0]`, not from the first whitespace-separated token.
For the query `"a\tb c"` the code issues `"a\tb company overview"`
(the tab survives), while the claim predicts `"a company overview"`. -/
theorem robust_search_fallback_token_counterexample :
    (robust_search senvEmptyAll "a\tb c").queries =
      [("a\tb c", 8), ("a\tb company overview", 8)] ∧
    specFirstWhitespaceToken "a\tb c" ++ " company overview" = "a company overview" ∧
    ¬ ("a\tb company overview" : String) = "a company overview" :=
  ⟨by decide, by decide, by decide⟩

/-- Claim C3: the deep-dive dragnet issues its query list sequentially in
list order, and the search dump is the concatenation, in that same
order, of one segment `"\nQuery: {q}\nData: {results}\n"` per query
whose search returned a non-empty result list; queries whose search came
back empty contribute nothing. -/
theorem search_dump_concat_in_order (env : SearchEnv)
    (real_company real_unit competitors : String) (manual_entry : Bool) :
    search_dump env (deep_dive_queries real_company real_unit competitors manual_entry) =
      String.join
        ((deep_dive_queries real_company real_unit competitors manual_entry).filterMap
          (dump_segment env)) := by
  have h := search_dump_go env
    (deep_dive_queries real_company real_unit competitors manual_entry) ""
  rw [String.empty_append] at h
  exact h

open Classical

/-- Claim C6: the deep dive issues exactly 5 broad queries when the chosen
unit string contains the substring `"All"` or manual-entry mode is
active, and exactly 4 unit-specific queries otherwise; the queries are
the fixed templates of `deep_dive_queries`, formatted with the company
(and, in the unit-specific case, the unit and competitors). -/
theorem deep_dive_query_count (real_company real_unit competitors : String)
    (manual_entry : Bool) :
    (deep_dive_queries real_company real_unit competitors manual_entry).length =
      if (∃ pre post, real_unit.toList = pre ++ "All".toList ++ post) ∨ manual_entry = true
      then 5 else 4 := by
  by_cases h : (containsSeg "All".toList real_unit.toList || manual_entry) = true
  · have hp : (∃ pre post, real_unit.toList = pre ++ "All".toList ++ post) ∨
        manual_entry = true := by
      simp only [Bool.or_eq_true] at h
      rcases h with h1 | h2
      · exact Or.inl (containsSeg_iff.mp h1)
      · exact Or.inr h2
    rw [if_pos hp]
    unfold deep_dive_queries
    rw [if_pos h]
    rfl
  · have hp : ¬ ((∃ pre post, real_unit.toList = pre ++ "All".toList ++ post) ∨
        manual_entry = true) := by
      intro hp
      apply h
      simp only [Bool.or_eq_true]
      rcases hp with h1 | h2
      · exact Or.inl (containsSeg_iff.mpr h1)
      · exact Or.inr h2
    rw [if_neg hp]
    unfold deep_dive_queries
    rw [if_neg h]
    rfl

/-- Claim C7, counterexample: `run_gemini` can return a non-`None` but
empty response text, and then `if report:` is falsy — the code shows
"AI generation failed." instead of rendering the (non-`None`) report, so
"non-None implies rendered" is false. -/
theorem deep_dive_render_counterexample :
    deep_dive_render "Acme" "dump" (some "") = .errorMsg "AI generation failed." ∧
    ¬ (some "" : Option String) = none :=
  ⟨rfl, by decide⟩

/-- Claim C7, as amended: after the deep-dive generation call, a truthy
report — non-`None` *and non-empty* — is rendered as markdown together
with the source-data expander; when the report is `None` or the empty
string, the error "AI generation failed." is shown and no report is
rendered. -/
theorem deep_dive_render_spec (real_company dump : String) (report : Option String) :
    (∀ r, report = some r → ¬ r = "" →
      deep_dive_render real_company dump report =
        .reportView ("### 📊 Analyst Briefing: " ++ real_company) r
          (if dump.isEmpty then "Relied on Internal Knowledge." else dump)) ∧
    ((report = none ∨ report = some "") →
      deep_dive_render real_company dump report = .errorMsg "AI generation failed.") := by
  constructor
  · rintro r rfl hr
    simp [deep_dive_render, isEmpty_false_of_ne hr]
  · rintro (rfl | rfl) <;> rfl

/-- Witness for the amended C7, at a non-empty report and an empty
search dump. -/
theorem deep_dive_render_spec_witness :
    deep_dive_render "Acme" "" (some "report body") =
      .reportView ("### 📊 Analyst Briefing: " ++ "Acme") "report body"
        (if ("" : String).isEmpty then "Relied on Internal Knowledge." else "") :=
  (deep_dive_render_spec "Acme" "" (some "report body")).1 "report body" rfl (by decide)

/-- Claim C10: `Skip & Enter Manually` with an empty (falsy) company input
stores the singleton option list with name "Target Company", while a
non-empty input is used verbatim as the name; in both cases
`manual_entry` becomes `True` and `step` becomes 2. -/
theorem skip_manual_spec (company_input : String) (s : SessState) :
    skip_manual company_input s =
      ⟨2, .arr [.obj
        [("name", .str (if company_input = "" then "Target Company" else company_input)),
         ("description", .str "Manual Entry"),
         ("units", .arr [.str "General / All Units"])]], true⟩ := by
  by_cases h : company_input = ""
  · subst h
    rfl
  · simp [skip_manual, isEmpty_false_of_ne h, h]

-- Concrete environments used by the `Find Account` counterexample and witness.

/-- A search environment where every query finds one result. -/
def senvOne : SearchEnv := ⟨fun _ _ => some ["r1"], fun _ => "RES"⟩

/-- A generation environment whose first model always answers the JSON
text `"[]"`. -/
def genvEmptyList : GeminiEnv := ⟨true, fun _ _ => some "[]"⟩

/-- A `json.loads` stand-in defined (as `json.loads` is) at `"[]"`. -/
def loadsEmptyList : String → Option Json :=
  fun t => if t = "[]" then some (.arr []) else none

/-- A generation environment whose first model always answers `"[1]"`. -/
def genvOk : GeminiEnv := ⟨true, fun _ _ => some "[1]"⟩

/-- A `json.loads` stand-in defined at `"[1]"`. -/
def loadsNum : String → Option Json :=
  fun t => if t = "[1]" then some (.arr [.num 1]) else none

/-- Claim C5, counterexample: with the search succeeding and the model
responding with the JSON text `"[]"`, the response *does* parse as JSON
(to the empty list), yet `if data:` is falsy for an empty Python list,
so the handler shows the parse error and leaves `entity_options` and
`step` unchanged instead of storing the parsed list and advancing to
step 2. -/
theorem find_account_counterexample :
    extract_json loadsEmptyList "[]" = some (.arr []) ∧
    (find_account senvOne genvEmptyList loadsEmptyList "key" "Acme" init_state).state
      = init_state ∧
    (find_account senvOne genvEmptyList loadsEmptyList "key" "Acme" init_state).errors
      = ["AI couldn't parse the data. Use 'Skip & Enter Manually'."] :=
  ⟨rfl, rfl, rfl⟩

/-- Claim C5, as amended: with an API key present, `Find Account` resolves
the entered company name via exactly one `robust_search` call on the
composed query and at most one `run_gemini` call (exactly one when the
search found results): when the response is truthy and parses to a
*truthy* JSON value the parsed value is stored in `entity_options` and
`step` advances to 2; if the search returned no results, or the response
is missing/empty, fails to parse, or parses to a falsy value (such as
the empty list), an error is shown and `entity_options` and `step` are
left unchanged. -/
theorem find_account_spec (senv : SearchEnv) (genv : GeminiEnv)
    (loads : String → Option Json) (api_key company_input : String) (s : SessState)
    (hk : ¬ api_key = "") :
    let q := company_input ++ " corporate structure business units investor relations"
    let results := (robust_search senv q).results
    let data := match (run_gemini genv api_key
        (prompt_template company_input (senv.strOf results))).response with
      | some r => if r.isEmpty then none else extract_json loads r
      | none => none
    let out := find_account senv genv loads api_key company_input s
    out.searchQueries = [q] ∧
    out.geminiCalls = (if results.isEmpty then 0 else 1) ∧
    (results.isEmpty = true → out.state = s ∧
      out.errors =
        ["Search found 0 results for '" ++ company_input ++ "'. Try the 'Skip' button."]) ∧
    (results.isEmpty = false →
      match data with
      | some d =>
        if pyTruthy d then
          out.state = { s with entity_options := d, step := 2 } ∧ out.errors = []
        else out.state = s ∧
          out.errors = ["AI couldn't parse the data. Use 'Skip & Enter Manually'."]
      | none => out.state = s ∧
          out.errors = ["AI couldn't parse the data. Use 'Skip & Enter Manually'."]) := by
  have hke : api_key.isEmpty = false := isEmpty_false_of_ne hk
  by_cases hres : (robust_search senv
      (company_input ++ " corporate structure business units investor relations")).results.isEmpty = true
  · simp [find_account, hke, hres]
  · have hres' : (robust_search senv
        (company_input ++ " corporate structure business units investor relations")).results.isEmpty = false := by
      revert hres
      cases (robust_search senv
        (company_input ++ " corporate structure business units investor relations")).results.isEmpty <;> simp
    cases hdata : (match (run_gemini genv api_key
        (prompt_template company_input (senv.strOf (robust_search senv
          (company_input ++ " corporate structure business units investor relations")).results))).response with
      | some r => if r.isEmpty then none else extract_json loads r
      | none => none) with
    | some d =>
      by_cases ht : pyTruthy d = true
      · simp [find_account, hke, hres', hdata, ht]
      · simp [find_account, hke, hres', hdata, ht]
    | none => simp [find_account, hke, hres', hdata]

/-- Witness for the amended C5: a run in which the search finds a result
and the model answers `"[1]"`, which parses to a truthy list, so the
handler stores it and advances to step 2. -/
theorem find_account_spec_witness :
    ¬ ("key" : String) = "" ∧
    (let q := "Acme" ++ " corporate structure business units investor relations"
     let results := (robust_search senvOne q).results
     let data := match (run_gemini genvOk "key"
         (prompt_template "Acme" (senvOne.strOf results))).response with
       | some r => if r.isEmpty then none else extract_json loadsNum r
       | none => none
     let out := find_account senvOne genvOk loadsNum "key" "Acme" init_state
     out.searchQueries = [q] ∧
     out.geminiCalls = (if results.isEmpty then 0 else 1) ∧
     (results.isEmpty = true → out.state = init_state ∧
       out.errors =
         ["Search found 0 results for '" ++ "Acme" ++ "'. Try the 'Skip' button."]) ∧
     (results.isEmpty = false →
       match data with
       | some d =>
         if pyTruthy d then
           out.state = { init_state with entity_options := d, step := 2 } ∧ out.errors = []
         else out.state = init_state ∧
           out.errors = ["AI couldn't parse the data. Use 'Skip & Enter Manually'."]
       | none => out.state = init_state ∧
           out.errors = ["AI couldn't parse the data. Use 'Skip & Enter Manually'."])) :=
  ⟨by decide, find_account_spec senvOne genvOk loadsNum "key" "Acme" init_state (by decide)⟩

/-- Every `Find Account` outcome either leaves the step flag unchanged
or sets it to 2. -/
theorem find_account_step_cases (senv : SearchEnv) (genv : GeminiEnv)
    (loads : String → Option Json) (api_key company_input : String) (s : SessState) :
    (find_account senv genv loads api_key company_input s).state.step = s.step ∨
    (find_account senv genv loads api_key company_input s).state.step = 2 := by
  unfold find_account
  dsimp only
  repeat' split
  all_goals first
  | exact Or.inl rfl
  | exact Or.inr rfl

/-- Claim C4: across every sequence of interactions from the initial
state, the session-state `step` flag only ever holds 1 or 2.  `Event`
enumerates every handler that writes session state: `step` starts at 1,
is set to 2 by the manual-entry skip or a successful account lookup, and
is reset to 1 — with `entity_options := []` and `manual_entry := False`
— only by `Start New Search`; no other transition exists. -/
theorem step_flag_invariant (es : List Event) :
    (run_app es).step = 1 ∨ (run_app es).step = 2 := by
  suffices h : ∀ (es : List Event) (s : SessState), s.step = 1 ∨ s.step = 2 →
      (es.foldl (fun s e => app_step e s) s).step = 1 ∨
      (es.foldl (fun s e => app_step e s) s).step = 2 by
    exact h es init_state (Or.inl rfl)
  intro es
  induction es with
  | nil => exact fun s hs => hs
  | cons e es ih =>
    intro s hs
    rw [List.foldl_cons]
    apply ih
    cases e with
    | startNewSearch => exact Or.inl rfl
    | skipManual input =>
      by_cases h1 : s.step = 1
      · rw [show app_step (.skipManual input) s = skip_manual input s by
          simp [app_step, h1]]
        exact Or.inr rfl
      · rw [show app_step (.skipManual input) s = s by simp [app_step, h1]]
        exact hs
    | findAccount senv genv loads k input =>
      by_cases h1 : s.step = 1
      · rw [show app_step (.findAccount senv genv loads k input) s =
            (find_account senv genv loads k input s).state by simp [app_step, h1]]
        rcases find_account_step_cases senv genv loads k input s with h | h
        · rw [h, h1]
          exact Or.inl rfl
        · exact Or.inr h
      · rw [show app_step (.findAccount senv genv loads k input) s = s by
          simp [app_step, h1]]
        exact hs
    | runDeepDive => exact hs
